import Mathlib

/-!
Verification of the TorchBlocks Lookahead-optimizer example
(`examples/task_text_classification_lookahead_cola.py`).

The repository's substantive algorithm is the Lookahead optimizer
("k steps forward, 1 step back"), imported in the example from
`torchblocks.optim.Lookahead`; the example file itself contributes the
parameter grouping in `LookaheadTrainer.build_optimizers`.  Tensors are
embedded as lists of rationals, the inner optimizer as a function on the
list of managed parameter tensors, and fallible operations return
`Except`.
-/

namespace TorchBlocks

/-- A parameter tensor: a flat list of numeric values. -/
abbrev Tensor := List ℚ

/-- Modelled from the spec: the mutable state of `torchblocks.optim.Lookahead`
(the class itself is not part of the example source file).  `params` are the
live (fast) parameter values managed by the inner optimizer, `slow` is the
SlowWeightsCache, `stepCount` the StepCounter, `k` the synchronization
period and `alpha` the interpolation factor. -/
structure LookaheadState where
  params : List Tensor
  slow : List Tensor
  stepCount : ℕ
  k : ℕ
  alpha : ℚ
  deriving Repr, DecidableEq

namespace Lookahead

/-- Modelled from the spec: construction of the Lookahead optimizer
(`torchblocks.optim.Lookahead.__init__`, absent from the example source).
Fails with `InvalidArgument` if `k < 1` or `alpha` is outside `(0, 1]`;
otherwise initializes the SlowWeightsCache by copying the current value of
every managed parameter and sets the StepCounter to 0. -/
def init (innerParams : List Tensor) (k : ℤ) (alpha : ℚ) :
    Except String LookaheadState :=
  if k < 1 then
    .error "InvalidArgument"
  else if ¬ (0 < alpha ∧ alpha ≤ 1) then
    .error "InvalidArgument"
  else
    .ok { params := innerParams
          slow := innerParams
          stepCount := 0
          k := k.toNat
          alpha := alpha }

/-- Element-wise interpolation of one slow tensor toward the matching fast
tensor: `slow + alpha * (fast - slow)`. -/
def interp (alpha : ℚ) (slow fast : Tensor) : Tensor :=
  List.zipWith (fun s f => s + alpha * (f - s)) slow fast

/-- Modelled from the spec: the step operation of
`torchblocks.optim.Lookahead` (absent from the example source).  It first
delegates fully to the inner optimizer's step (which rewrites every managed
parameter), then increments the StepCounter, and if the new counter is
divisible by `k` interpolates every slow weight toward the corresponding
fast weight and writes the result back to both the cache and the live
parameter.  A failure of the inner optimizer propagates unchanged. -/
def step {ε : Type} (inner : List Tensor → Except ε (List Tensor))
    (st : LookaheadState) : Except ε LookaheadState :=
  match inner st.params with
  | .error e => .error e
  | .ok fast =>
    let n := st.stepCount + 1
    if n % st.k = 0 then
      let newSlow := List.zipWith (interp st.alpha) st.slow fast
      .ok { st with params := newSlow, slow := newSlow, stepCount := n }
    else
      .ok { st with params := fast, stepCount := n }

/-- The step operation specialized to an infallible inner optimizer
(same algorithm as `step`, see `step_of_pure`). -/
def stepP (inner : List Tensor → List Tensor) (st : LookaheadState) :
    LookaheadState :=
  let fast := inner st.params
  let n := st.stepCount + 1
  if n % st.k = 0 then
    let newSlow := List.zipWith (interp st.alpha) st.slow fast
    { st with params := newSlow, slow := newSlow, stepCount := n }
  else
    { st with params := fast, stepCount := n }

/-- Run `n` consecutive step operations with an infallible inner optimizer. -/
def runSteps (inner : List Tensor → List Tensor) :
    ℕ → LookaheadState → LookaheadState
  | 0, st => st
  | n + 1, st => runSteps inner n (stepP inner st)

end Lookahead

/-! ### `LookaheadTrainer.build_optimizers` (from the example source)

The example file groups the model's named parameters into two parameter
groups: parameters whose name contains one of the `no_decay` substrings get
weight decay `0.0`, all others get `args.weight_decay`.  Python's
`nd in n` test on strings is substring containment, embedded below on
character lists. -/

/-- Test whether `needle` is an initial segment of `hay`. -/
def charsStartWith : List Char → List Char → Bool
  | [], _ => true
  | _ :: _, [] => false
  | a :: as, b :: bs => a == b && charsStartWith as bs

/-- Test whether `needle` occurs contiguously inside `hay`
(Python's `needle in hay` on strings). -/
def charsContain (needle : List Char) : List Char → Bool
  | [] => charsStartWith needle []
  | c :: cs => charsStartWith needle (c :: cs) || charsContain needle cs

/-- Python's `nd in n` substring test lifted to `String`. -/
def strContains (hay needle : String) : Bool :=
  charsContain needle.toList hay.toList

/-- One entry of `optimizer_grouped_parameters`: a dict holding the group's
parameters and its weight-decay rate.  The parameter type `P` is abstract
(a live tensor reference in the source). -/
structure ParamGroup (P : Type) where
  params : List P
  weight_decay : ℚ
  deriving Repr, DecidableEq

/-- The `no_decay` name fragments of `LookaheadTrainer.build_optimizers`. -/
def no_decay : List String := ["bias", "LayerNorm.weight"]

/-- The test `any(nd in n for nd in no_decay)` for a parameter name `n`. -/
def isNoDecayName (n : String) : Bool :=
  no_decay.any (fun nd => strContains n nd)

/-- The grouping performed by `LookaheadTrainer.build_optimizers` on
`model.named_parameters()` to build `optimizer_grouped_parameters`: the first
group holds parameters whose name matches no `no_decay` fragment with
weight decay `args.weight_decay`, the second holds the rest with weight
decay `0.0`. -/
def build_optimizers_groups {P : Type} (weight_decay : ℚ)
    (named : List (String × P)) : List (ParamGroup P) :=
  [ { params := (named.filter (fun np => ! isNoDecayName np.1)).map Prod.snd
      weight_decay := weight_decay },
    { params := (named.filter (fun np => isNoDecayName np.1)).map Prod.snd
      weight_decay := 0 } ]

/-- Placeholder group used only to state list-indexing in theorems. -/
def dummyGroup {P : Type} : ParamGroup P :=
  { params := [], weight_decay := 37 }

/-- The spec's pure test double: an inner optimizer that decrements every
parameter entry by `1.0` per step. -/
def decInner : List Tensor → List Tensor :=
  fun ps => ps.map (fun t => t.map (fun x => x - 1))

end TorchBlocks

/-! ## Helper lemmas -/

namespace TorchBlocks

namespace Lookahead

theorem step_of_pure (inner : List Tensor → List Tensor) (st : LookaheadState) :
    step (fun ps => (.ok (inner ps) : Except Empty (List Tensor))) st =
      .ok (stepP inner st) := by
  unfold step stepP
  dsimp only
  split <;> rfl

theorem stepP_stepCount (inner : List Tensor → List Tensor)
    (st : LookaheadState) : (stepP inner st).stepCount = st.stepCount + 1 := by
  unfold stepP
  dsimp only
  split <;> rfl

theorem stepP_k (inner : List Tensor → List Tensor) (st : LookaheadState) :
    (stepP inner st).k = st.k := by
  unfold stepP
  dsimp only
  split <;> rfl

theorem stepP_sync_params_eq_slow (inner : List Tensor → List Tensor)
    (st : LookaheadState) (h : (st.stepCount + 1) % st.k = 0) :
    (stepP inner st).params = (stepP inner st).slow := by
  unfold stepP
  dsimp only
  rw [if_pos h]

theorem runSteps_succ_last (inner : List Tensor → List Tensor) (n : ℕ)
    (st : LookaheadState) :
    runSteps inner (n + 1) st = stepP inner (runSteps inner n st) := by
  induction n generalizing st with
  | zero => rfl
  | succ m ih =>
      show runSteps inner (m + 1) (stepP inner st) = _
      rw [ih (stepP inner st)]
      rfl

theorem runSteps_stepCount (inner : List Tensor → List Tensor) (n : ℕ)
    (st : LookaheadState) :
    (runSteps inner n st).stepCount = st.stepCount + n := by
  induction n generalizing st with
  | zero => rfl
  | succ m ih =>
      show (runSteps inner m (stepP inner st)).stepCount = _
      rw [ih, stepP_stepCount]
      omega

theorem runSteps_k (inner : List Tensor → List Tensor) (n : ℕ)
    (st : LookaheadState) : (runSteps inner n st).k = st.k := by
  induction n generalizing st with
  | zero => rfl
  | succ m ih =>
      show (runSteps inner m (stepP inner st)).k = _
      rw [ih, stepP_k]

theorem init_ok (ps : List Tensor) (k : ℤ) (a : ℚ) (st0 : LookaheadState)
    (h : init ps k a = .ok st0) :
    1 ≤ k ∧ 0 < a ∧ a ≤ 1 ∧
      st0 = { params := ps, slow := ps, stepCount := 0, k := k.toNat,
              alpha := a } := by
  unfold init at h
  split at h
  · exact absurd h (by simp)
  · split at h
    · exact absurd h (by simp)
    · rename_i h1 h2
      refine ⟨by omega, by tauto, by tauto, ?_⟩
      exact (Except.ok.injEq _ _).mp h.symm

end Lookahead

end TorchBlocks

namespace TorchBlocks

namespace Lookahead

theorem step_ok_cases {ε : Type} (inner : List Tensor → Except ε (List Tensor))
    (st st' : LookaheadState) (hstep : step inner st = .ok st') :
    ∃ fast, inner st.params = .ok fast ∧
      ((st.stepCount + 1) % st.k = 0 ∧
        st' = { st with
                params := List.zipWith (interp st.alpha) st.slow fast
                slow := List.zipWith (interp st.alpha) st.slow fast
                stepCount := st.stepCount + 1 } ∨
       ¬ (st.stepCount + 1) % st.k = 0 ∧
        st' = { st with params := fast, stepCount := st.stepCount + 1 }) := by
  unfold step at hstep
  cases hi : inner st.params with
  | error e =>
      rw [hi] at hstep
      exact absurd hstep (by simp)
  | ok fast =>
      rw [hi] at hstep
      dsimp only at hstep
      refine ⟨fast, rfl, ?_⟩
      by_cases hc : (st.stepCount + 1) % st.k = 0
      · rw [if_pos hc] at hstep
        exact Or.inl ⟨hc, ((Except.ok.injEq _ _).mp hstep).symm⟩
      · rw [if_neg hc] at hstep
        exact Or.inr ⟨hc, ((Except.ok.injEq _ _).mp hstep).symm⟩

theorem interp_one : ∀ (s f : Tensor), s.length = f.length → interp 1 s f = f
  | [], [], _ => rfl
  | [], _ :: _, h => by simp at h
  | _ :: _, [], h => by simp at h
  | a :: as, b :: bs, h => by
      have h' : as.length = bs.length := by simpa using h
      show (a + 1 * (b - a)) :: interp 1 as bs = b :: bs
      rw [interp_one as bs h']
      have hb : a + 1 * (b - a) = b := by ring
      rw [hb]

theorem zipWith_interp_one (slow fast : List Tensor)
    (h : List.Forall₂ (fun s f => s.length = f.length) slow fast) :
    List.zipWith (interp 1) slow fast = fast := by
  induction h with
  | nil => rfl
  | cons hab _ ih =>
      show interp 1 _ _ :: List.zipWith (interp 1) _ _ = _
      rw [interp_one _ _ hab, ih]

theorem stepP_len_invariant (inner : List Tensor → List Tensor)
    (hpres : ∀ l : List Tensor, (inner l).length = l.length)
    (st : LookaheadState) (h : st.slow.length = st.params.length) :
    (stepP inner st).slow.length = (stepP inner st).params.length := by
  unfold stepP
  dsimp only
  split
  · rfl
  · show st.slow.length = (inner st.params).length
    rw [hpres, h]

end Lookahead

theorem length_filter_partition {α : Type} (c : α → Bool) (l : List α) :
    (l.filter fun x => ! c x).length + (l.filter c).length = l.length := by
  induction l with
  | nil => rfl
  | cons x xs ih =>
      have := ih
      by_cases hx : c x <;> simp [List.filter_cons, hx] <;> omega

end TorchBlocks

/-! ## Claim theorems -/

namespace TorchBlocks

namespace Lookahead

/-- C1: every call to the Lookahead step first delegates fully to the inner
optimizer's step, then increments the StepCounter, and updates every managed
parameter by `slow = slow + alpha * (fast - slow)` element-wise — writing
the result into both the SlowWeightsCache and the live parameter value — if
and only if the incremented StepCounter is divisible by `k`. -/
theorem lookahead_step_contract {ε : Type}
    (inner : List Tensor → Except ε (List Tensor)) (st : LookaheadState)
    (fast : List Tensor) (h : inner st.params = .ok fast) :
    step inner st =
      .ok (if (st.stepCount + 1) % st.k = 0 then
            { st with
              params := List.zipWith
                (fun s f => List.zipWith (fun sv fv => sv + st.alpha * (fv - sv)) s f)
                st.slow fast
              slow := List.zipWith
                (fun s f => List.zipWith (fun sv fv => sv + st.alpha * (fv - sv)) s f)
                st.slow fast
              stepCount := st.stepCount + 1 }
          else
            { st with params := fast, stepCount := st.stepCount + 1 }) := by
  unfold step
  rw [h]
  dsimp only
  split <;> rfl

/-- Witness for C1 at a concrete non-synchronizing input. -/
theorem lookahead_step_contract_witness :
    step (fun _ => (.ok [[5]] : Except String (List Tensor)))
        { params := [[1]], slow := [[2]], stepCount := 0, k := 2, alpha := 1/2 } =
      .ok { params := [[5]], slow := [[2]], stepCount := 1, k := 2, alpha := 1/2 } := by
  have H := lookahead_step_contract (fun _ => (.ok [[5]] : Except String (List Tensor)))
      { params := [[1]], slow := [[2]], stepCount := 0, k := 2, alpha := 1/2 }
      [[5]] rfl
  simpa using H

/-- C3: after a step whose incremented StepCounter is not divisible by `k`,
no interpolation occurs: the SlowWeightsCache is unchanged and the live
parameters are exactly the inner optimizer's output. -/
theorem lookahead_no_sync_frame {ε : Type}
    (inner : List Tensor → Except ε (List Tensor)) (st st' : LookaheadState)
    (fast : List Tensor) (h : inner st.params = .ok fast)
    (hstep : step inner st = .ok st') (hnot : ¬ st'.stepCount % st.k = 0) :
    st'.slow = st.slow ∧ st'.params = fast := by
  obtain ⟨f, hf, hcases⟩ := step_ok_cases inner st st' hstep
  have hff : f = fast := by
    rw [h] at hf
    exact ((Except.ok.injEq _ _).mp hf).symm
  subst hff
  rcases hcases with ⟨hc, hval⟩ | ⟨hc, hval⟩
  · subst hval
    exact absurd hc hnot
  · subst hval
    exact ⟨rfl, rfl⟩

/-- Witness for C3 at a concrete non-synchronizing input. -/
theorem lookahead_no_sync_frame_witness :
    ([[2]] : List Tensor) = [[2]] ∧ ([[5]] : List Tensor) = [[5]] := by
  have H := lookahead_no_sync_frame (fun _ => (.ok [[5]] : Except String (List Tensor)))
      { params := [[1]], slow := [[2]], stepCount := 0, k := 2, alpha := 1/2 }
      { params := [[5]], slow := [[2]], stepCount := 1, k := 2, alpha := 1/2 }
      [[5]] rfl rfl (by decide)
  exact H

/-- C7: a failure of the inner optimizer's step propagates to the caller
unchanged: the Lookahead step returns the very same error and produces no
updated state. -/
theorem lookahead_error_propagation {ε : Type}
    (inner : List Tensor → Except ε (List Tensor)) (st : LookaheadState)
    (e : ε) (h : inner st.params = .error e) : step inner st = .error e := by
  unfold step
  rw [h]

/-- Witness for C7 at a concrete failing inner optimizer. -/
theorem lookahead_error_propagation_witness :
    step (fun _ => (.error "shape mismatch" : Except String (List Tensor)))
        { params := [[1]], slow := [[2]], stepCount := 0, k := 2, alpha := 1/2 } =
      .error "shape mismatch" :=
  lookahead_error_propagation _ _ "shape mismatch" rfl

end Lookahead

end TorchBlocks

namespace TorchBlocks

namespace Lookahead

/-- C2: whenever a step synchronizes (the new StepCounter is divisible by
`k`) the live parameters and the SlowWeightsCache are equal afterwards; in
particular, for any validly constructed optimizer (`k` at least 1, `alpha`
in the unit interval) the state reached after exactly `k` steps from step
count 0 has its fast and slow weights equal. -/
theorem lookahead_sync_equal {ε : Type}
    (inner : List Tensor → Except ε (List Tensor)) (st st' : LookaheadState)
    (hstep : step inner st = .ok st') (hsync : st'.stepCount % st.k = 0)
    (innerP : List Tensor → List Tensor) (ps : List Tensor) (k : ℤ) (a : ℚ)
    (st0 : LookaheadState) (hinit : init ps k a = .ok st0) :
    st'.params = st'.slow ∧
      (runSteps innerP k.toNat st0).params = (runSteps innerP k.toNat st0).slow := by
  constructor
  · obtain ⟨fast, _, hcases⟩ := step_ok_cases inner st st' hstep
    rcases hcases with ⟨_, hval⟩ | ⟨hc, hval⟩
    · subst hval
      rfl
    · subst hval
      exact absurd hsync hc
  · obtain ⟨hk, _, _, hst0⟩ := init_ok ps k a st0 hinit
    subst hst0
    obtain ⟨m, hm⟩ : ∃ m, k.toNat = m + 1 := ⟨k.toNat - 1, by omega⟩
    rw [hm, runSteps_succ_last]
    apply stepP_sync_params_eq_slow
    rw [runSteps_stepCount, runSteps_k]
    simp

/-- Witness for C2 at a concrete synchronizing step and a concrete
construction with k = 2. -/
theorem lookahead_sync_equal_witness :
    ({ params := [[3]], slow := [[3]], stepCount := 1, k := 1, alpha := 1/2 }
        : LookaheadState).params =
      ({ params := [[3]], slow := [[3]], stepCount := 1, k := 1, alpha := 1/2 }
        : LookaheadState).slow ∧
    (runSteps (fun ps => ps) (2 : ℤ).toNat
        { params := [[6]], slow := [[6]], stepCount := 0, k := 2, alpha := 1 }).params =
      (runSteps (fun ps => ps) (2 : ℤ).toNat
        { params := [[6]], slow := [[6]], stepCount := 0, k := 2, alpha := 1 }).slow :=
  lookahead_sync_equal (fun _ => (.ok [[4]] : Except String (List Tensor)))
    { params := [[1]], slow := [[2]], stepCount := 0, k := 1, alpha := 1/2 }
    { params := [[3]], slow := [[3]], stepCount := 1, k := 1, alpha := 1/2 }
    (by unfold step interp; norm_num) (by norm_num) (fun ps => ps) [[6]] 2 1
    { params := [[6]], slow := [[6]], stepCount := 0, k := 2, alpha := 1 }
    (by unfold init; norm_num; rfl)

/-- C4: construction fails with `InvalidArgument` exactly when `k < 1` or
`alpha` lies outside the interval `(0, 1]`; in particular `k = 0` (for any
alpha) and `alpha = 3/2` (for any k) are rejected before any step exists. -/
theorem lookahead_init_invalid :
    (∀ (ps : List Tensor) (k : ℤ) (a : ℚ),
        init ps k a = .error "InvalidArgument" ↔ (k < 1 ∨ ¬ (0 < a ∧ a ≤ 1))) ∧
    (∀ (ps : List Tensor) (a : ℚ), init ps 0 a = .error "InvalidArgument") ∧
    (∀ (ps : List Tensor) (k : ℤ), init ps k (3/2) = .error "InvalidArgument") := by
  refine ⟨fun ps k a => ?_, fun ps a => ?_, fun ps k => ?_⟩
  · unfold init
    by_cases h1 : k < 1
    · rw [if_pos h1]
      simp [h1]
    · rw [if_neg h1]
      by_cases h2 : 0 < a ∧ a ≤ 1
      · rw [if_neg (not_not_intro h2)]
        simp [h1, h2]
      · rw [if_pos h2]
        simp [h2]
  · unfold init
    rw [if_pos (by norm_num)]
  · unfold init
    by_cases h1 : k < 1
    · rw [if_pos h1]
    · rw [if_neg h1, if_pos (by norm_num)]

end Lookahead

end TorchBlocks

namespace TorchBlocks

namespace Lookahead

/-- C5: the spec's concrete scenario with one parameter starting at 10, an
inner optimizer that decrements by 1 per step, k = 3 and alpha = 1/2: fast
weights go 9, 8, then 7 right after the third inner step; the third step
synchronizes, setting slow = 10 + (1/2)(7 - 10) = 17/2 and resetting the
fast weights to 17/2. -/
theorem lookahead_scenario_k3 :
    init [[10]] 3 (1/2) =
      .ok { params := [[10]], slow := [[10]], stepCount := 0, k := 3, alpha := 1/2 } ∧
    (runSteps decInner 1
        { params := [[10]], slow := [[10]], stepCount := 0, k := 3, alpha := 1/2 }).params
      = [[9]] ∧
    (runSteps decInner 1
        { params := [[10]], slow := [[10]], stepCount := 0, k := 3, alpha := 1/2 }).slow
      = [[10]] ∧
    (runSteps decInner 2
        { params := [[10]], slow := [[10]], stepCount := 0, k := 3, alpha := 1/2 }).params
      = [[8]] ∧
    (runSteps decInner 2
        { params := [[10]], slow := [[10]], stepCount := 0, k := 3, alpha := 1/2 }).slow
      = [[10]] ∧
    decInner (runSteps decInner 2
        { params := [[10]], slow := [[10]], stepCount := 0, k := 3, alpha := 1/2 }).params
      = [[7]] ∧
    (runSteps decInner 3
        { params := [[10]], slow := [[10]], stepCount := 0, k := 3, alpha := 1/2 }).slow
      = [[17/2]] ∧
    (runSteps decInner 3
        { params := [[10]], slow := [[10]], stepCount := 0, k := 3, alpha := 1/2 }).params
      = [[17/2]] := by
  have e1 : stepP decInner
      { params := [[10]], slow := [[10]], stepCount := 0, k := 3, alpha := 1/2 } =
      { params := [[9]], slow := [[10]], stepCount := 1, k := 3, alpha := 1/2 } := by
    unfold stepP decInner interp
    norm_num
  have e2 : stepP decInner
      { params := [[9]], slow := [[10]], stepCount := 1, k := 3, alpha := 1/2 } =
      { params := [[8]], slow := [[10]], stepCount := 2, k := 3, alpha := 1/2 } := by
    unfold stepP decInner interp
    norm_num
  have e3 : stepP decInner
      { params := [[8]], slow := [[10]], stepCount := 2, k := 3, alpha := 1/2 } =
      { params := [[17/2]], slow := [[17/2]], stepCount := 3, k := 3, alpha := 1/2 } := by
    unfold stepP decInner interp
    norm_num
  have r1 : runSteps decInner 1
      { params := [[10]], slow := [[10]], stepCount := 0, k := 3, alpha := 1/2 } =
      { params := [[9]], slow := [[10]], stepCount := 1, k := 3, alpha := 1/2 } := by
    exact e1
  have r2 : runSteps decInner 2
      { params := [[10]], slow := [[10]], stepCount := 0, k := 3, alpha := 1/2 } =
      { params := [[8]], slow := [[10]], stepCount := 2, k := 3, alpha := 1/2 } := by
    rw [show (2 : ℕ) = 1 + 1 from rfl, runSteps_succ_last, r1]
    exact e2
  have r3 : runSteps decInner 3
      { params := [[10]], slow := [[10]], stepCount := 0, k := 3, alpha := 1/2 } =
      { params := [[17/2]], slow := [[17/2]], stepCount := 3, k := 3, alpha := 1/2 } := by
    rw [show (3 : ℕ) = 2 + 1 from rfl, runSteps_succ_last, r2]
    exact e3
  refine ⟨?_, ?_, ?_, ?_, ?_, ?_, ?_, ?_⟩
  · unfold init
    norm_num
    rfl
  · rw [r1]
  · rw [r1]
  · rw [r2]
  · rw [r2]
  · rw [r2]
    unfold decInner
    norm_num
  · rw [r3]
  · rw [r3]

/-- C6: boundary behaviour: with k = 1 every step synchronizes (the
interpolation phase runs on every call), and with alpha = 1 a
synchronizing step sets the slow weights exactly equal to the fast weights
and resets the live parameters to that same value, so the optimizer's
parameters coincide with the inner optimizer's output. -/
theorem lookahead_boundary {ε : Type}
    (inner : List Tensor → Except ε (List Tensor)) (st st' : LookaheadState)
    (fast : List Tensor) (h : inner st.params = .ok fast)
    (hstep : step inner st = .ok st') :
    (st.k = 1 →
      st'.slow = List.zipWith (interp st.alpha) st.slow fast ∧
      st'.params = st'.slow) ∧
    (st.alpha = 1 → st'.stepCount % st.k = 0 →
      List.Forall₂ (fun s f => s.length = f.length) st.slow fast →
      st'.params = fast ∧ st'.slow = fast) := by
  obtain ⟨f, hf, hcases⟩ := step_ok_cases inner st st' hstep
  rw [h] at hf
  have hff : fast = f := (Except.ok.injEq _ _).mp hf
  subst hff
  rcases hcases with ⟨hc, hval⟩ | ⟨hc, hval⟩
  · subst hval
    refine ⟨fun _ => ⟨rfl, rfl⟩, fun ha _ hlen => ?_⟩
    have : List.zipWith (interp st.alpha) st.slow fast = fast := by
      rw [ha]
      exact zipWith_interp_one st.slow fast hlen
    exact ⟨this, this⟩
  · subst hval
    constructor
    · intro hk1
      exact absurd (by rw [hk1]; exact Nat.mod_one _) hc
    · intro _ hsync _
      exact absurd hsync hc

/-- Witness for C6 at a concrete step with k = 1 and alpha = 1. -/
theorem lookahead_boundary_witness :
    (([[5]] : List Tensor) = List.zipWith (interp 1) [[3]] [[5]] ∧
      ([[5]] : List Tensor) = [[5]]) ∧
    (([[5]] : List Tensor) = [[5]] ∧ ([[5]] : List Tensor) = [[5]]) := by
  have H := lookahead_boundary (fun _ => (.ok [[5]] : Except String (List Tensor)))
      { params := [[2]], slow := [[3]], stepCount := 0, k := 1, alpha := 1 }
      { params := [[5]], slow := [[5]], stepCount := 1, k := 1, alpha := 1 }
      [[5]] rfl (by unfold step interp; norm_num)
  exact ⟨H.1 rfl, H.2 rfl rfl (List.Forall₂.cons rfl List.Forall₂.nil)⟩

end Lookahead

end TorchBlocks

namespace TorchBlocks

namespace Lookahead

/-- C8: the StepCounter is a single non-negative integer, incremented
exactly once per successful step, and monotonically non-decreasing across
any sequence of step operations. -/
theorem stepCounter_invariant {ε : Type}
    (innerE : List Tensor → Except ε (List Tensor)) (st st' : LookaheadState)
    (hstep : step innerE st = .ok st') (inner : List Tensor → List Tensor)
    (s : LookaheadState) (n m : ℕ) (hnm : n ≤ m) :
    st'.stepCount = st.stepCount + 1 ∧
    0 ≤ (runSteps inner n s).stepCount ∧
    (runSteps inner n s).stepCount ≤ (runSteps inner m s).stepCount := by
  refine ⟨?_, Nat.zero_le _, ?_⟩
  · obtain ⟨fast, _, hcases⟩ := step_ok_cases innerE st st' hstep
    rcases hcases with ⟨_, hval⟩ | ⟨_, hval⟩ <;> subst hval <;> rfl
  · rw [runSteps_stepCount, runSteps_stepCount]
    omega

/-- Witness for C8 at a concrete step and a concrete pair of run lengths. -/
theorem stepCounter_invariant_witness :
    (1 : ℕ) = 0 + 1 ∧
    0 ≤ (runSteps (fun ps => ps) 2
        { params := [[6]], slow := [[6]], stepCount := 0, k := 2, alpha := 1 }).stepCount ∧
    (runSteps (fun ps => ps) 2
        { params := [[6]], slow := [[6]], stepCount := 0, k := 2, alpha := 1 }).stepCount ≤
      (runSteps (fun ps => ps) 3
        { params := [[6]], slow := [[6]], stepCount := 0, k := 2, alpha := 1 }).stepCount := by
  have H := stepCounter_invariant (fun _ => (.ok [[5]] : Except String (List Tensor)))
      { params := [[1]], slow := [[2]], stepCount := 0, k := 2, alpha := 1/2 }
      { params := [[5]], slow := [[2]], stepCount := 1, k := 2, alpha := 1/2 }
      rfl (fun ps => ps)
      { params := [[6]], slow := [[6]], stepCount := 0, k := 2, alpha := 1 }
      2 3 (by omega)
  exact H

/-- C9: at construction the SlowWeightsCache is a copy of the managed
parameters (one shadow entry per parameter), and at every reachable state
of a run driven by a parameter-count-preserving inner optimizer the cache
keeps exactly one entry per managed parameter. -/
theorem slowCache_invariant (ps : List Tensor) (k : ℤ) (a : ℚ)
    (st0 : LookaheadState) (hinit : init ps k a = .ok st0)
    (inner : List Tensor → List Tensor)
    (hpres : ∀ l : List Tensor, (inner l).length = l.length) (n : ℕ) :
    st0.slow = ps ∧ st0.slow = st0.params ∧
    (runSteps inner n st0).slow.length = (runSteps inner n st0).params.length := by
  obtain ⟨_, _, _, hst0⟩ := init_ok ps k a st0 hinit
  subst hst0
  refine ⟨rfl, rfl, ?_⟩
  have key : ∀ (s : LookaheadState), s.slow.length = s.params.length →
      (runSteps inner n s).slow.length = (runSteps inner n s).params.length := by
    induction n with
    | zero => exact fun s hs => hs
    | succ m ih =>
        exact fun s hs => ih (stepP inner s) (stepP_len_invariant inner hpres s hs)
  exact key _ rfl

/-- Witness for C9 at a concrete construction and a concrete run. -/
theorem slowCache_invariant_witness :
    ({ params := [[6], [7]], slow := [[6], [7]], stepCount := 0, k := 2, alpha := 1 }
        : LookaheadState).slow = [[6], [7]] ∧
    ({ params := [[6], [7]], slow := [[6], [7]], stepCount := 0, k := 2, alpha := 1 }
        : LookaheadState).slow =
      ({ params := [[6], [7]], slow := [[6], [7]], stepCount := 0, k := 2, alpha := 1 }
        : LookaheadState).params ∧
    (runSteps (fun l => l) 3
        { params := [[6], [7]], slow := [[6], [7]], stepCount := 0, k := 2, alpha := 1 }).slow.length =
      (runSteps (fun l => l) 3
        { params := [[6], [7]], slow := [[6], [7]], stepCount := 0, k := 2, alpha := 1 }).params.length := by
  have H := slowCache_invariant [[6], [7]] 2 1
      { params := [[6], [7]], slow := [[6], [7]], stepCount := 0, k := 2, alpha := 1 }
      (by unfold init; norm_num; rfl) (fun l => l) (fun l => rfl) 3
  exact H

end Lookahead

/-- C10: the grouping in `build_optimizers` partitions the model's named
parameters into exactly two groups whose sizes add up to the total number
of named parameters; a parameter whose name contains `bias` or
`LayerNorm.weight` lands in the second group, which carries weight decay
0, and every other parameter lands in the first group, which carries
weight decay `args.weight_decay`. -/
theorem build_optimizers_partition {P : Type} (wd : ℚ)
    (named : List (String × P)) (np : String × P) (hmem : np ∈ named) :
    (build_optimizers_groups wd named).length = 2 ∧
    ((build_optimizers_groups wd named).getD 0 dummyGroup).weight_decay = wd ∧
    ((build_optimizers_groups wd named).getD 1 dummyGroup).weight_decay = 0 ∧
    ((build_optimizers_groups wd named).getD 0 dummyGroup).params.length +
      ((build_optimizers_groups wd named).getD 1 dummyGroup).params.length
      = named.length ∧
    (isNoDecayName np.1 = true →
      np.2 ∈ ((build_optimizers_groups wd named).getD 1 dummyGroup).params) ∧
    (isNoDecayName np.1 = false →
      np.2 ∈ ((build_optimizers_groups wd named).getD 0 dummyGroup).params) := by
  refine ⟨rfl, rfl, rfl, ?_, ?_, ?_⟩
  · show ((named.filter fun q => ! isNoDecayName q.1).map Prod.snd).length +
        ((named.filter fun q => isNoDecayName q.1).map Prod.snd).length = named.length
    rw [List.length_map, List.length_map]
    exact length_filter_partition (fun q => isNoDecayName q.1) named
  · intro hyes
    show np.2 ∈ (named.filter fun q => isNoDecayName q.1).map Prod.snd
    exact List.mem_map_of_mem Prod.snd (List.mem_filter.mpr ⟨hmem, hyes⟩)
  · intro hno
    show np.2 ∈ (named.filter fun q => ! isNoDecayName q.1).map Prod.snd
    exact List.mem_map_of_mem Prod.snd (List.mem_filter.mpr ⟨hmem, by simp [hno]⟩)

/-- Witness for C10 on a two-parameter model with one `bias` parameter. -/
theorem build_optimizers_partition_witness :
    (build_optimizers_groups (1 : ℚ)
        [("encoder.bias", (0 : ℕ)), ("encoder.weight", 1)]).length = 2 ∧
    ((build_optimizers_groups (1 : ℚ)
        [("encoder.bias", (0 : ℕ)), ("encoder.weight", 1)]).getD 0 dummyGroup).weight_decay = 1 ∧
    ((build_optimizers_groups (1 : ℚ)
        [("encoder.bias", (0 : ℕ)), ("encoder.weight", 1)]).getD 1 dummyGroup).weight_decay = 0 ∧
    ((build_optimizers_groups (1 : ℚ)
        [("encoder.bias", (0 : ℕ)), ("encoder.weight", 1)]).getD 0 dummyGroup).params.length +
      ((build_optimizers_groups (1 : ℚ)
        [("encoder.bias", (0 : ℕ)), ("encoder.weight", 1)]).getD 1 dummyGroup).params.length = 2 ∧
    (0 : ℕ) ∈ ((build_optimizers_groups (1 : ℚ)
        [("encoder.bias", (0 : ℕ)), ("encoder.weight", 1)]).getD 1 dummyGroup).params := by
  have H := build_optimizers_partition (1 : ℚ)
      [("encoder.bias", (0 : ℕ)), ("encoder.weight", 1)] ("encoder.bias", 0)
      (List.mem_cons_self _ _)
  exact ⟨H.1, H.2.1, H.2.2.1, H.2.2.2.1, H.2.2.2.2.1 (by decide)⟩

end TorchBlocks
